import Mathlib

/-!
# Verification of the minio client (`pkg/minio/client.go`)

Shallow embedding of the paginated bucket listing
(`GetBucket`), object metadata (`Stat`), partial retrieval (`GetPartial`)
and URL construction, translated from `pkg/minio/client.go`.

Modelling conventions:
* The HTTP transport is an oracle `Nat → RoundTrip` giving the outcome of
  each successive round trip (indexed by the number of round trips already
  issued); a round trip either fails at the transport level (`err != nil`
  from `RoundTrip`) or yields a response with a status code and, for
  listing requests, the result of XML-decoding the body.
* Go strings are Lean strings; the Go byte-wise lexicographic `<` on valid
  UTF-8 strings agrees with the Lean `String` order (UTF-8 preserves
  code-point order).
* Go `int`/`int64` are `Int` (no arithmetic here approaches overflow).
* The outer page loop of `GetBucket` has no termination guarantee in the
  source (a server answering truncated pages forever loops forever), so the
  embedding takes a `fuel` bound on page iterations and returns `none` for
  runs that exceed it; claims quantify over runs that return.
* The Go function returns the pair `(items []*Item, err error)`; the
  embedding mirrors that pair (`GBReturn`), recording at each `return`
  site exactly the items value the source returns there, together with the
  number of round trips issued so far.
-/

namespace Minio

/-- `type Item struct { Key, LastModified string; Size int64 }`. -/
structure Item where
  key : String
  lastModified : String
  size : Int
deriving Repr, DecidableEq

/-- `type listBucketResults struct { Contents []*Item; IsTruncated bool;
MaxKeys int; Name string; Marker string }`. -/
structure ListBucketResults where
  contents : List Item
  isTruncated : Bool
  maxKeys : Int
  name : String
  marker : String
deriving Repr, DecidableEq

/-- The zero value `listBucketResults{}` (Go `var bres listBucketResults`). -/
def zeroBres : ListBucketResults :=
  { contents := [], isTruncated := false, maxKeys := 0, name := "", marker := "" }

/-- Outcome of one `c.transport().RoundTrip(req)` during listing:
either a transport-level error (`err != nil`), or a response carrying the
HTTP status code and, when the body is XML-decoded as a listing page, the
decode outcome (`none` = `xml.Decode` failed, `some b` = decoded value). -/
inductive RoundTrip where
  | transportError
  | response (status : Nat) (decoded : Option ListBucketResults)
deriving Repr, DecidableEq

/-- The error values `GetBucket` can return (each constructor is one of the
return-nil-err sites of the source). -/
inductive GetBucketError where
  /-- `errors.New("invalid negative maxKeys")` -/
  | negativeMaxKeys
  /-- transport error surfaced after the final attempt -/
  | transportFailure
  /-- `&Error{Op: "ListBucket", Code: status, ...}` for status ≠ 200, < 500 -/
  | permanentStatus (code : Nat)
  /-- `xml.Decode` error surfaced after retries -/
  | decodeFailure
  /-- `fmt.Errorf("Unexpected parse from server: ...")` (echoed
  max-keys/name/marker mismatch) surfaced after retries -/
  | validationMismatch (bres : ListBucketResults)
  /-- `fmt.Errorf("Unexpected response from Minio: item key %q but wanted
  greater than %q", ...)` -/
  | integrityViolation (key startAt : String)
deriving Repr, DecidableEq

/-- `const maxTries = 5` -/
def maxTries : Nat := 5

/-- Result of the per-page retry loop: either `GetBucket` returns
(`fatal`, one of the `return nil, err` sites inside the loop) or the loop
`break`s with the current `bres` (`accepted`). `next` is the round-trip
index after the loop. -/
inductive PageOutcome where
  | fatal (e : GetBucketError) (next : Nat)
  | accepted (bres : ListBucketResults) (next : Nat)
deriving Repr, DecidableEq

/-- The retry loop `for try := 1; try <= maxTries; try++` of `GetBucket`,
parametrised by `k = maxTries - try` (attempts remaining after the current
one); the initial call uses `k = maxTries - 1`.  Each attempt consumes
round trip `t idx`.  Faithful to the source:
* transport error: `continue` while `try < maxTries` (`k > 0`), else
  `return nil, err`;
* status ≠ 200 and < 500: `return nil, aerr` (permanent);
* status ≥ 500: neither branch assigns `err`, so `err` is `nil` and the
  loop `break`s with the *current* `bres` (a stale or zero value);
* status 200: decode; on decode error `bres` was reset to the zero value,
  on an echoed max-keys/name/marker mismatch `err` is set with the decoded
  `bres` kept; either way `continue` only while `try < maxTries-1`
  (`k > 1`), else `return nil, err`;
* status 200, decoded and validated: `break` with the fresh page. -/
def fetchPageAux (t : Nat → RoundTrip) (fetchN : Int) (bucket marker : String) :
    Nat → ListBucketResults → Nat → PageOutcome
  | 0, bres, idx =>
    -- final attempt (`try = maxTries`): every retryable outcome is fatal
    match t idx with
    | .transportError => .fatal .transportFailure (idx + 1)
    | .response status decoded =>
      if status = 200 then
        match decoded with
        | none => .fatal .decodeFailure (idx + 1)
        | some b =>
          if b.maxKeys = fetchN ∧ b.name = bucket ∧ b.marker = marker then
            .accepted b (idx + 1)
          else
            .fatal (.validationMismatch b) (idx + 1)
      else if status < 500 then .fatal (.permanentStatus status) (idx + 1)
      else .accepted bres (idx + 1)
  | k + 1, bres, idx =>
    match t idx with
    | .transportError => fetchPageAux t fetchN bucket marker k bres (idx + 1)
    | .response status decoded =>
      if status = 200 then
        match decoded with
        | none =>
          if 1 ≤ k then fetchPageAux t fetchN bucket marker k zeroBres (idx + 1)
          else .fatal .decodeFailure (idx + 1)
        | some b =>
          if b.maxKeys = fetchN ∧ b.name = bucket ∧ b.marker = marker then
            .accepted b (idx + 1)
          else if 1 ≤ k then fetchPageAux t fetchN bucket marker k b (idx + 1)
          else .fatal (.validationMismatch b) (idx + 1)
      else if status < 500 then .fatal (.permanentStatus status) (idx + 1)
      else .accepted bres (idx + 1)

/-- The retry loop entered at `try = 1` with `bres` the zero value
(`var bres listBucketResults` is declared afresh for each page). -/
def fetchPage (t : Nat → RoundTrip) (fetchN : Int) (bucket marker : String)
    (idx : Nat) : PageOutcome :=
  fetchPageAux t fetchN bucket marker (maxTries - 1) zeroBres idx

/-- The Go `<` on strings: byte-wise lexicographic comparison, which on
valid UTF-8 agrees with lexicographic comparison of the code points
(UTF-8 preserves code-point order), here computed on the character
sequences of the two strings. -/
def charsLt : List Char → List Char → Bool
  | [], [] => false
  | [], _ :: _ => true
  | _ :: _, [] => false
  | a :: as, b :: bs =>
    if a.toNat < b.toNat then true
    else if b.toNat < a.toNat then false
    else charsLt as bs

/-- The item loop `for _, it := range bres.Contents` of `GetBucket`:
skip `it` when `it.Key == marker && it.Key != startAt`; fail when
`it.Key < startAt`; otherwise append `it` and advance the marker. -/
def processItems (startAt : String) :
    List Item → List Item → String → Except GetBucketError (List Item × String)
  | [], items, marker => .ok (items, marker)
  | it :: rest, items, marker =>
    if it.key = marker ∧ it.key ≠ startAt then
      processItems startAt rest items marker
    else if charsLt it.key.data startAt.data then
      .error (.integrityViolation it.key startAt)
    else
      processItems startAt rest (items ++ [it]) it.key

/-- `MAX_OBJECT_LIST = 1000` -/
def MAX_OBJECT_LIST : Int := 1000

/-- What the Go `GetBucket` returns: the `(items, err)` pair, plus the number
of round trips issued (`rt`), so that "no I/O happened" is observable. -/
structure GBReturn where
  items : List Item
  err : Option GetBucketError
  rt : Nat
deriving Repr, DecidableEq

/-- The outer page loop `for len(items) < maxKeys` of `GetBucket`.
`fuel` bounds the number of page iterations (`none` = the source would
still be looping); `idx` counts round trips issued so far. -/
def getBucketLoop (t : Nat → RoundTrip) (bucket startAt : String) (maxKeys : Int) :
    Nat → List Item → String → Nat → Option GBReturn
  | 0, items, _, idx =>
    if (items.length : Int) < maxKeys then none else some ⟨items, none, idx⟩
  | fuel + 1, items, marker, idx =>
    if (items.length : Int) < maxKeys then
      match fetchPage t (min (maxKeys - items.length) MAX_OBJECT_LIST) bucket marker idx with
      | .fatal e idx' => some ⟨[], some e, idx'⟩
      | .accepted bres idx' =>
        match processItems startAt bres.contents items marker with
        | .error e => some ⟨[], some e, idx'⟩
        | .ok (items', marker') =>
          if bres.isTruncated then
            getBucketLoop t bucket startAt maxKeys fuel items' marker' idx'
          else some ⟨items', none, idx'⟩
    else some ⟨items, none, idx⟩

/-- `func (c *Client) GetBucket(bucket, startAt string, maxKeys int)
(items []*Item, err error)`, with the transport as an oracle. -/
def GetBucket (t : Nat → RoundTrip) (bucket startAt : String) (maxKeys : Int)
    (fuel : Nat) : Option GBReturn :=
  if maxKeys < 0 then some ⟨[], some .negativeMaxKeys, 0⟩
  else getBucketLoop t bucket startAt maxKeys fuel [] startAt 0

/-! ## Stat -/

/-- Outcome of the single `HEAD` round trip of `Stat`: transport error, or a
response with status code and the `Content-Length` header value. -/
inductive StatRoundTrip where
  | transportError
  | response (status : Nat) (contentLength : String)
deriving Repr, DecidableEq

/-- The error values `Stat` can return. -/
inductive StatErr where
  /-- the transport error, returned as-is -/
  | transportFailure
  /-- `os.ErrNotExist` (the distinguishable not-found sentinel) -/
  | notExist
  /-- the error of `strconv.ParseInt` on the `Content-Length` header -/
  | parseFailure
  /-- `fmt.Errorf("minio: Unexpected status code %d statting object %v")` -/
  | unexpectedStatus (code : Nat)
deriving Repr, DecidableEq

/-- Decimal digits to a value; `none` when empty or a non-digit occurs. -/
def digitsVal (cs : List Char) : Option Nat :=
  if cs = [] then none
  else
    cs.foldl
      (fun acc c =>
        match acc with
        | none => none
        | some n => if c.isDigit then some (n * 10 + (c.toNat - '0'.toNat)) else none)
      (some 0)

/-- `strconv.ParseInt(s, 10, 64)`: optional sign, decimal digits, 64-bit
range check; `none` stands for a non-nil Go error (syntax or range). -/
def parseInt64 (s : String) : Option Int :=
  let p : Bool × List Char :=
    match s.data with
    | '-' :: rest => (true, rest)
    | '+' :: rest => (false, rest)
    | cs => (false, cs)
  match digitsVal p.2 with
  | none => none
  | some n =>
    let v : Int := if p.1 then -(n : Int) else (n : Int)
    if -(2 ^ 63) ≤ v ∧ v ≤ 2 ^ 63 - 1 then some v else none

/-- `func (c *Client) Stat(key, bucket string) (size int64, reterr error)`:
404 ↦ `(0, os.ErrNotExist)`; 200 ↦ `strconv.ParseInt(Content-Length)`;
any other status ↦ `(0, fmt.Errorf(...))`. -/
def Stat (r : StatRoundTrip) : Int × Option StatErr :=
  match r with
  | .transportError => (0, some .transportFailure)
  | .response status contentLength =>
    if status = 404 then (0, some .notExist)
    else if status = 200 then
      match parseInt64 contentLength with
      | some v => (v, none)
      | none => (0, some .parseFailure)
    else (0, some (.unexpectedStatus status))

/-! ## GetPartial -/

/-- Outcome of the single round trip of `GetPartial`. -/
inductive GPRoundTrip where
  | transportError
  | response (status : Nat)
deriving Repr, DecidableEq

/-- The error values `GetPartial` can return. -/
inductive GPErr where
  /-- `errors.New("invalid negative length")` (guards `offset < 0`) -/
  | negativeOffset
  | transportFailure
  /-- `os.ErrNotExist` -/
  | notExist
  /-- `fmt.Errorf("Minio HTTP error on GET: %d")` -/
  | httpError (code : Nat)
deriving Repr, DecidableEq

/-- The `Range` header `GetPartial` sets: `bytes=%d-%d` with
`offset, offset+length-1` when `length >= 0`, else `bytes=%d-`. -/
def rangeHeader (offset length : Int) : String :=
  if 0 ≤ length then
    "bytes=" ++ toString offset ++ "-" ++ toString (offset + length - 1)
  else
    "bytes=" ++ toString offset ++ "-"

/-- What `GetPartial` produces: whether a (non-nil) body stream is handed
back, the error, and the `Range` header of the request that was issued
(`none` when the guard rejected the call before building any request). -/
structure GPReturn where
  hasBody : Bool
  err : Option GPErr
  issuedRange : Option String
deriving Repr, DecidableEq

/-- `func (c *Client) GetPartial(bucket, key string, offset, length int64)
(rc io.ReadCloser, err error)`. -/
def GetPartial (t : GPRoundTrip) (offset length : Int) : GPReturn :=
  if offset < 0 then ⟨false, some .negativeOffset, none⟩
  else
    let hdr := rangeHeader offset length
    match t with
    | .transportError => ⟨false, some .transportFailure, some hdr⟩
    | .response status =>
      if status = 200 ∨ status = 206 then ⟨true, none, some hdr⟩
      else if status = 404 then ⟨false, some .notExist, some hdr⟩
      else ⟨false, some (.httpError status), some hdr⟩

/-! ## URL construction -/

/-- `Client.hostname()`: the configured hostname, or `"localhost"` when
empty. -/
def hostnameOr (h : String) : String :=
  if h ≠ "" then h else "localhost"

/-- `url.QueryEscape`: is `c` in the Go unreserved set for query components
(alphanumerics and `-_.~`)? -/
def isUnreservedQuery (c : Char) : Bool :=
  c.isAlphanum || c = '-' || c = '_' || c = '.' || c = '~'

/-- Upper-case hex digit for `n < 16`. -/
def hexDigit (n : Nat) : Char :=
  if n < 10 then Char.ofNat ('0'.toNat + n) else Char.ofNat ('A'.toNat + n - 10)

/-- UTF-8 bytes of a character (as `Nat`s), as Go iterates them. -/
def utf8Bytes (c : Char) : List Nat :=
  let n := c.toNat
  if n < 0x80 then [n]
  else if n < 0x800 then [0xC0 + n / 0x40, 0x80 + n % 0x40]
  else if n < 0x10000 then
    [0xE0 + n / 0x1000, 0x80 + n / 0x40 % 0x40, 0x80 + n % 0x40]
  else
    [0xF0 + n / 0x40000, 0x80 + n / 0x1000 % 0x40, 0x80 + n / 0x40 % 0x40,
      0x80 + n % 0x40]

/-- `url.QueryEscape` applied to one character: unreserved characters are
kept, space becomes `+`, everything else is `%XX` per UTF-8 byte. -/
def escapeChar (c : Char) : String :=
  if isUnreservedQuery c then String.singleton c
  else if c = ' ' then "+"
  else
    String.join ((utf8Bytes c).map fun b =>
      "%" ++ String.singleton (hexDigit (b / 16)) ++ String.singleton (hexDigit (b % 16)))

/-- `url.QueryEscape`. -/
def queryEscape (s : String) : String :=
  String.join (s.data.map escapeChar)

/-- `bucketURL`: `fmt.Sprintf("http://%s/%s/", c.hostname(), bucket)`. -/
def bucketURL (h bucket : String) : String :=
  "http://" ++ hostnameOr h ++ "/" ++ bucket ++ "/"

/-- `keyURL`: `c.bucketURL(bucket) + key`. -/
def keyURL (h bucket key : String) : String :=
  bucketURL h bucket ++ key

/-- The listing URL of `GetBucket`:
`fmt.Sprintf("%s?marker=%s&max-keys=%d", c.bucketURL(bucket),
url.QueryEscape(marker), fetchN)`. -/
def listURL (h bucket marker : String) (fetchN : Int) : String :=
  bucketURL h bucket ++ "?marker=" ++ queryEscape marker ++ "&max-keys=" ++ toString fetchN

/-- The URL of `Buckets()`: `"http://" + c.hostname() + "/"`. -/
def bucketsURL (h : String) : String :=
  "http://" ++ hostnameOr h ++ "/"

/-- The URL of `BucketLocation`:
`fmt.Sprintf("http://%s/%s/?location", hostname, url.QueryEscape(bucket))`
(note: the hostname is the argument, not `c.hostname()`, and the bucket is
query-escaped into the path). -/
def bucketLocationURL (hostname bucket : String) : String :=
  "http://" ++ hostname ++ "/" ++ queryEscape bucket ++ "/?location"

/-! ## Concrete transports used by the theorems below -/

/-- A transport whose first round trip yields HTTP 503 and whose later
round trips yield a perfect single-item page. -/
def tFirst503 : Nat → RoundTrip := fun n =>
  if n = 0 then .response 503 none
  else .response 200 (some ⟨[⟨"k1", "", 1⟩], false, 10, "bkt", "a"⟩)

/-- A transport that always yields the same perfect single-item page. -/
def tAlwaysOk : Nat → RoundTrip := fun _ =>
  .response 200 (some ⟨[⟨"k1", "", 1⟩], false, 10, "bkt", "a"⟩)

/-- The two-page listing of the spec scenario: page 1 is `["a","b"]`,
truncated, echoing marker `"a"` and max-keys 10; page 2 is `["b","c"]`,
final, echoing marker `"b"` and max-keys 8. -/
def tTwoPages : Nat → RoundTrip := fun n =>
  if n = 0 then .response 200 (some ⟨[⟨"a", "", 0⟩, ⟨"b", "", 0⟩], true, 10, "bkt", "a"⟩)
  else .response 200 (some ⟨[⟨"b", "", 0⟩, ⟨"c", "", 0⟩], false, 8, "bkt", "b"⟩)

/-- A transport answering a validated page whose contents are out of
order (`"c"` before `"b"`). -/
def tUnsortedPage : Nat → RoundTrip := fun _ =>
  .response 200 (some ⟨[⟨"c", "", 0⟩, ⟨"b", "", 0⟩], false, 10, "bkt", "a"⟩)

/-- A transport whose first four round trips yield bodies that fail to
decode and whose fifth yields a perfect page. -/
def tDecodeFail4 : Nat → RoundTrip := fun n =>
  if n < 4 then .response 200 none
  else .response 200 (some ⟨[⟨"k", "", 0⟩], false, 10, "bkt", "a"⟩)

/-- A transport whose first three round trips yield bodies that fail to
decode and whose fourth yields a perfect page. -/
def tDecodeFail3 : Nat → RoundTrip := fun n =>
  if n < 3 then .response 200 none
  else .response 200 (some ⟨[⟨"k", "", 0⟩], false, 10, "bkt", "a"⟩)

/-- A transport answering a validated page for start key `"b"` whose only
item has key `"a"`. -/
def tBefore : Nat → RoundTrip := fun _ =>
  .response 200 (some ⟨[⟨"a", "", 0⟩], false, 5, "x", "b"⟩)

/-- A transport whose round trips all fail at the transport level. -/
def tAllErr : Nat → RoundTrip := fun _ => .transportError

/-- A transport answering a single sorted final page `["a","c"]` for
start key `"a"`. -/
def tSorted : Nat → RoundTrip := fun _ =>
  .response 200 (some ⟨[⟨"a", "", 0⟩, ⟨"c", "", 0⟩], false, 10, "bkt", "a"⟩)

/-- The property "strictly increasing by key" stated by the spec, as an
executable check: each adjacent pair of items is strictly ordered. -/
def strictlyIncreasingByKey : List Item → Bool
  | [] => true
  | [_] => true
  | x :: y :: rest =>
    charsLt x.key.data y.key.data && strictlyIncreasingByKey (y :: rest)

/-- Classification of a round-trip outcome by the retry loop as a
retryable page failure (`err` set in the status-200 branch): a body that
fails to decode, or a decoded page whose echoed max-keys, bucket name or
marker does not match the request; `some e` is the error the loop would
surface for it. -/
def retryClassified (r : RoundTrip) (fetchN : Int) (bucket marker : String) :
    Option GetBucketError :=
  match r with
  | .transportError => none
  | .response status decoded =>
    if status = 200 then
      match decoded with
      | none => some .decodeFailure
      | some b =>
        if b.maxKeys = fetchN ∧ b.name = bucket ∧ b.marker = marker then none
        else some (.validationMismatch b)
    else none

/-- The value of `bres` after the status-200 branch ran on outcome `r`
(`bres` is reset before decoding, and keeps the decoded value on a
validation mismatch); unchanged for other outcomes. -/
def bresAfter (r : RoundTrip) (bres : ListBucketResults) : ListBucketResults :=
  match r with
  | .transportError => bres
  | .response status decoded =>
    if status = 200 then
      match decoded with
      | none => zeroBres
      | some b => b
    else bres

/-- The step relation obeyed by consecutive returned items: strictly
increasing by key, except that an item whose key is the original start key
may be followed by an item with the same key. -/
def stepRel (startAt : String) (x y : Item) : Prop :=
  charsLt x.key.data y.key.data = true ∨ (x.key = y.key ∧ y.key = startAt)

/-- The server behaves on decoded pages: every decoded listing body has
its contents strictly increasing by key, and no content key is
lexicographically less than the echoed marker of the page. -/
def GoodPages (t : Nat → RoundTrip) : Prop :=
  ∀ n b, t n = .response 200 (some b) →
    b.contents.Pairwise (fun x y => charsLt x.key.data y.key.data = true) ∧
    ∀ it ∈ b.contents, charsLt it.key.data b.marker.data = false

/-- No round trip of the oracle yields an HTTP status ≥ 500. -/
def No5xx (t : Nat → RoundTrip) : Prop :=
  ∀ n s d, t n = .response s d → s < 500

/-! ## Theorems -/

/-- C1. The claim states that a listing page response with status ≥ 500 is
retried while attempts remain, and that two 503 outcomes followed by a
success yield the same items as an immediate success.  The code instead
leaves `err` nil in the status-≥-500 branch, so the retry loop `break`s at
once with the zero-valued `bres`: the very first 503 ends the listing with
the items accumulated so far (here none) and a nil error, and no retry is
ever attempted — the two runs below return different item sequences. -/
theorem getBucket_503_not_retried :
    GetBucket tFirst503 "bkt" "a" 10 2 = some ⟨[], none, 1⟩ ∧
    GetBucket tAlwaysOk "bkt" "a" 10 2 = some ⟨[⟨"k1", "", 1⟩], none, 1⟩ := by
  decide

/-- C5. With start key `"a"`, page 1 = `["a","b"]` (truncated) and page 2 =
`["b","c"]`, the duplicated boundary key `"b"` on page 2 is skipped and the
call returns exactly `["a","b","c"]`; the conjuncts on `processItems` show
an item is skipped when its key equals the marker and differs from the
start key, and is kept when its key equals both. -/
theorem getBucket_two_page_dedup :
    GetBucket tTwoPages "bkt" "a" 10 3 =
      some ⟨[⟨"a", "", 0⟩, ⟨"b", "", 0⟩, ⟨"c", "", 0⟩], none, 2⟩ ∧
    processItems "a" [⟨"b", "", 0⟩] [⟨"a", "", 0⟩, ⟨"b", "", 0⟩] "b" =
      .ok ([⟨"a", "", 0⟩, ⟨"b", "", 0⟩], "b") ∧
    processItems "a" [⟨"a", "", 0⟩] [] "a" = .ok ([⟨"a", "", 0⟩], "a") :=
  ⟨by decide, rfl, rfl⟩

/-- C2, counterexample. The claim asserts the returned sequence is strictly
increasing for any sequence of accepted server pages; but the code never
checks the order within a page, so a validated page listing `"c"` before
`"b"` is returned as-is, out of order. -/
theorem getBucket_unsorted_page_returned :
    GetBucket tUnsortedPage "bkt" "a" 10 1 =
      some ⟨[⟨"c", "", 0⟩, ⟨"b", "", 0⟩], none, 1⟩ ∧
    strictlyIncreasingByKey [⟨"c", "", 0⟩, ⟨"b", "", 0⟩] = false := by
  decide

/-- C4, counterexample. The claim says a decode failure is retried whenever
attempts remain in the 5-attempt budget.  But the source retries such
failures only while `try < maxTries-1`: with decode failures on attempts
1–4 and a perfect page available on attempt 5, the call surfaces the decode
error after only four round trips, leaving the fifth attempt unused —
whereas decode failures on attempts 1–3 are retried and the run succeeds on
attempt 4. -/
theorem getBucket_fifth_attempt_unused :
    GetBucket tDecodeFail4 "bkt" "a" 10 1 = some ⟨[], some .decodeFailure, 4⟩ ∧
    GetBucket tDecodeFail3 "bkt" "a" 10 1 = some ⟨[⟨"k", "", 0⟩], none, 4⟩ := by
  decide

/-- C4, amended. A decode failure or an echoed max-keys/name/marker
mismatch on a page attempt is retried only while at least two attempts
remain counting the current one (`k ≥ 2`, i.e. attempts 1–3 of the
5-attempt budget); when `k ≤ 1` (attempts 4 and 5) the loop returns that
last error to the caller instead of retrying, even though on attempt 4 the
budget still held one more attempt. -/
theorem pageFailure_retry_policy (t : Nat → RoundTrip) (fetchN : Int)
    (bucket marker : String) (bres : ListBucketResults) (idx k : Nat)
    (e : GetBucketError)
    (he : retryClassified (t idx) fetchN bucket marker = some e) :
    (2 ≤ k →
      fetchPageAux t fetchN bucket marker k bres idx =
        fetchPageAux t fetchN bucket marker (k - 1) (bresAfter (t idx) bres) (idx + 1)) ∧
    (k ≤ 1 →
      fetchPageAux t fetchN bucket marker k bres idx = .fatal e (idx + 1)) := by
  rcases ht : t idx with _ | ⟨status, decoded⟩ <;>
    rw [ht] at he <;> simp only [retryClassified] at he
  · exact absurd he (by simp)
  · split at he
    case isFalse => exact absurd he (by simp)
    case isTrue h200 =>
      subst h200
      rcases decoded with _ | b
      · injection he with he
        subst he
        refine ⟨fun hk => ?_, fun hk => ?_⟩
        · match k, hk with
          | k' + 2, _ =>
            have h1 : 1 ≤ k' + 1 := by omega
            simp [fetchPageAux, ht, bresAfter, h1]
        · match k, hk with
          | 0, _ => simp [fetchPageAux, ht]
          | 1, _ => simp [fetchPageAux, ht]
      · have he' : (if b.maxKeys = fetchN ∧ b.name = bucket ∧ b.marker = marker then
            (none : Option GetBucketError)
          else some (.validationMismatch b)) = some e := he
        clear he
        split at he'
        case isTrue => exact absurd he' (by simp)
        case isFalse hval =>
          rename' he' => he
          injection he with he
          subst he
          refine ⟨fun hk => ?_, fun hk => ?_⟩
          · match k, hk with
            | k' + 2, _ =>
              have h1 : 1 ≤ k' + 1 := by omega
              simp [fetchPageAux, ht, bresAfter, hval, h1]
          · match k, hk with
            | 0, _ => simp [fetchPageAux, ht, hval]
            | 1, _ => simp [fetchPageAux, ht, hval]

/-- Closed witness for `pageFailure_retry_policy`: a decode-failing
response at attempt 1 of a page (`k = 4`) is retried — the loop state
moves on to the next round trip — and the same response at `k = 1` is
fatal. -/
theorem pageFailure_retry_policy_witness :
    retryClassified (tDecodeFail4 0) 10 "bkt" "a" = some .decodeFailure ∧
    fetchPageAux tDecodeFail4 10 "bkt" "a" 4 zeroBres 0 =
      fetchPageAux tDecodeFail4 10 "bkt" "a" 3 (bresAfter (tDecodeFail4 0) zeroBres) 1 ∧
    fetchPageAux tDecodeFail4 10 "bkt" "a" 1 zeroBres 0 =
      .fatal .decodeFailure 1 :=
  ⟨by decide,
   (pageFailure_retry_policy tDecodeFail4 10 "bkt" "a" zeroBres 0 4 .decodeFailure
      (by decide)).1 (by omega),
   (pageFailure_retry_policy tDecodeFail4 10 "bkt" "a" zeroBres 0 1 .decodeFailure
      (by decide)).2 (by omega)⟩

/-- C10, counterexample. Not every URL the client builds has the form
`http://host/bucket/` or `http://host/bucket/key` with an unescaped
bucket: the bucket-list URL has no bucket segment at all, and
`BucketLocation` query-escapes the bucket into the path (a space becomes
`+`), so the listing marker is not the only query-escaped component. -/
theorem bucketLocation_url_escapes_bucket :
    bucketLocationURL "h" "my bucket" = "http://h/my+bucket/?location" ∧
    bucketsURL "h" = "http://h/" ∧
    queryEscape "my bucket" ≠ "my bucket" := by
  refine ⟨?_, ?_, ?_⟩ <;> decide

/-- C10, amended. The URLs built through `bucketURL`/`keyURL` (used by
Stat, Get, GetPartial, Put, PutBucket and the listing) have the form
`http://<hostname>/<bucket>/` or `http://<hostname>/<bucket>/<key>`: the
scheme is plain `http`, the hostname falls back to `"localhost"` when
empty, and bucket and key are inserted without escaping; in the listing
URL the marker is the only query-escaped component.  The two other URLs
the client builds deviate: the bucket-list URL has no bucket segment, and
the `BucketLocation` URL query-escapes the bucket into the path and does
not apply the localhost fallback. -/
theorem client_url_forms (h bucket key marker : String) (fetchN : Int) :
    bucketURL h bucket =
      "http://" ++ (if h = "" then "localhost" else h) ++ "/" ++ bucket ++ "/" ∧
    keyURL h bucket key =
      "http://" ++ (if h = "" then "localhost" else h) ++ "/" ++ bucket ++ "/" ++ key ∧
    listURL h bucket marker fetchN =
      bucketURL h bucket ++ "?marker=" ++ queryEscape marker ++ "&max-keys=" ++
        toString fetchN ∧
    bucketsURL h = "http://" ++ (if h = "" then "localhost" else h) ++ "/" ∧
    bucketLocationURL h bucket =
      "http://" ++ h ++ "/" ++ queryEscape bucket ++ "/?location" := by
  have hh : hostnameOr h = if h = "" then "localhost" else h := by
    by_cases hc : h = "" <;> simp [hostnameOr, hc]
  refine ⟨?_, ?_, rfl, ?_, rfl⟩ <;>
    simp [bucketURL, keyURL, bucketsURL, hh, String.append_assoc]

/-- C6. `GetBucket` with negative `maxKeys` returns the input-validation
error with zero round trips issued, and `GetPartial` with negative offset
returns the input-validation error with no request built (`issuedRange`
is `none`): both are rejected before any I/O. -/
theorem negative_inputs_rejected_before_io (t : Nat → RoundTrip)
    (t2 : GPRoundTrip) (bucket startAt : String)
    (maxKeys offset length : Int) (fuel : Nat)
    (hmk : maxKeys < 0) (ho : offset < 0) :
    GetBucket t bucket startAt maxKeys fuel = some ⟨[], some .negativeMaxKeys, 0⟩ ∧
    GetPartial t2 offset length = ⟨false, some .negativeOffset, none⟩ := by
  constructor
  · simp [GetBucket, hmk]
  · simp [GetPartial, ho]

/-- Closed witness for `negative_inputs_rejected_before_io` at
`maxKeys = -1` and `offset = -1`. -/
theorem negative_inputs_rejected_before_io_witness :
    (-1 : Int) < 0 ∧
    GetBucket tAllErr "b" "s" (-1) 3 = some ⟨[], some .negativeMaxKeys, 0⟩ ∧
    GetPartial .transportError (-1) 7 = ⟨false, some .negativeOffset, none⟩ := by
  refine ⟨by norm_num, ?_, ?_⟩
  · exact (negative_inputs_rejected_before_io tAllErr .transportError "b" "s"
      (-1) (-1) 7 3 (by norm_num) (by norm_num)).1
  · exact (negative_inputs_rejected_before_io tAllErr .transportError "b" "s"
      (-1) (-1) 7 3 (by norm_num) (by norm_num)).2

/-- A round trip that yields a decoded page echoing the requested
max-keys, bucket name and marker makes the retry loop `break` at once,
accepting that page. -/
theorem fetchPage_valid (t : Nat → RoundTrip) (fetchN : Int)
    (bucket marker : String) (idx : Nat) (b : ListBucketResults)
    (ht : t idx = .response 200 (some b))
    (h1 : b.maxKeys = fetchN) (h2 : b.name = bucket) (h3 : b.marker = marker) :
    fetchPage t fetchN bucket marker idx = .accepted b (idx + 1) := by
  show fetchPageAux t fetchN bucket marker (3 + 1) zeroBres idx = .accepted b (idx + 1)
  simp [fetchPageAux, ht, h1, h2, h3]

/-- C7. When the first round trip yields a validated page whose first item
has a key lexicographically less than the original start key, `GetBucket`
fails at once with the protocol-integrity error, returns no items, and
issues exactly one round trip (no retry of the page). -/
theorem getBucket_integrity_fails_immediately (t : Nat → RoundTrip)
    (bucket startAt : String) (maxKeys : Int) (fuel : Nat)
    (b : ListBucketResults) (it : Item) (rest : List Item)
    (hmk : 0 < maxKeys) (hf : 0 < fuel)
    (ht : t 0 = .response 200 (some b))
    (hc : b.contents = it :: rest)
    (hech : b.maxKeys = min maxKeys MAX_OBJECT_LIST)
    (hname : b.name = bucket) (hmark : b.marker = startAt)
    (hlt : charsLt it.key.data startAt.data = true) :
    GetBucket t bucket startAt maxKeys fuel =
      some ⟨[], some (.integrityViolation it.key startAt), 1⟩ := by
  obtain ⟨f, rfl⟩ : ∃ f, fuel = f + 1 := ⟨fuel - 1, by omega⟩
  have hnn : ¬ maxKeys < 0 := by omega
  have hv : fetchPage t (min (maxKeys - (([] : List Item).length : Int))
      MAX_OBJECT_LIST) bucket startAt 0 = .accepted b 1 :=
    fetchPage_valid t _ bucket startAt 0 b ht
      (by rw [hech]; norm_num) hname hmark
  have hskip : ¬ (it.key = startAt ∧ it.key ≠ startAt) := by tauto
  have hpi : processItems startAt (it :: rest) [] startAt =
      .error (.integrityViolation it.key startAt) := by
    simp [processItems, hskip, hlt]
  simp only [GetBucket, if_neg hnn, getBucketLoop]
  rw [if_pos (by simpa using hmk)]
  simp only [hv, hc, hpi]

/-- Closed witness for `getBucket_integrity_fails_immediately`: start key
`"b"`, a single validated page with the one item `"a"`. -/
theorem getBucket_integrity_fails_immediately_witness :
    GetBucket tBefore "x" "b" 5 1 =
      some ⟨[], some (.integrityViolation "a" "b"), 1⟩ :=
  getBucket_integrity_fails_immediately tBefore "x" "b" 5 1
    ⟨[⟨"a", "", 0⟩], false, 5, "x", "b"⟩ ⟨"a", "", 0⟩ []
    (by norm_num) (by norm_num) rfl rfl (by decide) rfl rfl (by decide)

/-- Every `some` result of the page loop that carries an error carries the
empty item list: each return-with-error site of the source returns `nil`
items. -/
theorem getBucketLoop_err_nil (t : Nat → RoundTrip) (bucket startAt : String)
    (maxKeys : Int) :
    ∀ fuel items marker idx r e,
      getBucketLoop t bucket startAt maxKeys fuel items marker idx = some r →
      r.err = some e → r.items = [] := by
  intro fuel
  induction fuel with
  | zero =>
    intro items marker idx r e h he
    simp only [getBucketLoop] at h
    split at h
    · exact absurd h (by simp)
    · injection h with h
      subst h
      exact absurd he (by simp)
  | succ fuel ih =>
    intro items marker idx r e h he
    simp only [getBucketLoop] at h
    split at h
    case isFalse =>
      injection h with h
      subst h
      exact absurd he (by simp)
    case isTrue hcond =>
      split at h
      · injection h with h
        subst h
        rfl
      · split at h
        · injection h with h
          subst h
          rfl
        · split at h
          · exact ih _ _ _ r e h he
          · injection h with h
            subst h
            exact absurd he (by simp)

/-- C3. `GetBucket` is atomic in its result: a returning call that carries
an error carries the empty (`nil`) item sequence — no partial sequence of
items accumulated from earlier pages is ever handed back with an error. -/
theorem getBucket_no_partial_items (t : Nat → RoundTrip)
    (bucket startAt : String) (maxKeys : Int) (fuel : Nat)
    (r : GBReturn) (e : GetBucketError)
    (h : GetBucket t bucket startAt maxKeys fuel = some r)
    (he : r.err = some e) :
    r.items = [] := by
  rw [GetBucket] at h
  split at h
  · injection h with h
    subst h
    rfl
  · exact getBucketLoop_err_nil t bucket startAt maxKeys fuel [] startAt 0 r e h he

/-- Closed witness for `getBucket_no_partial_items`: a run whose five
attempts all fail at the transport level errors out with no items. -/
theorem getBucket_no_partial_items_witness :
    GetBucket tAllErr "b" "a" 1 1 = some ⟨[], some .transportFailure, 5⟩ ∧
    GBReturn.items ⟨[], some .transportFailure, 5⟩ = [] :=
  ⟨by decide,
   getBucket_no_partial_items tAllErr "b" "a" 1 1
     ⟨[], some .transportFailure, 5⟩ .transportFailure (by decide) rfl⟩

/-- C8. `Stat` maps the response status to its outcome: 404 yields size 0
with the not-found sentinel (which is distinct from every fatal
`unexpectedStatus` outcome); 200 yields the size parsed from the
Content-Length header; any other status yields the fatal error carrying
that status code. -/
theorem stat_status_mapping (cl : String) (status : Nat) (v : Int)
    (hp : parseInt64 cl = some v)
    (hs4 : status ≠ 404) (hs2 : status ≠ 200) :
    Stat (.response 404 cl) = (0, some .notExist) ∧
    (∀ c : Nat, StatErr.notExist = .unexpectedStatus c → False) ∧
    Stat (.response 200 cl) = (v, none) ∧
    Stat (.response status cl) = (0, some (.unexpectedStatus status)) := by
  refine ⟨rfl, ?_, ?_, ?_⟩
  · intro c hc
    exact StatErr.noConfusion hc
  · simp [Stat, hp]
  · simp [Stat, hs4, hs2]

/-- Closed witness for `stat_status_mapping` at Content-Length `"1234"`
and status 500. -/
theorem stat_status_mapping_witness :
    parseInt64 "1234" = some 1234 ∧
    Stat (.response 404 "1234") = (0, some .notExist) ∧
    Stat (.response 200 "1234") = (1234, none) ∧
    Stat (.response 500 "1234") = (0, some (.unexpectedStatus 500)) := by
  refine ⟨by decide, ?_, ?_, ?_⟩
  · exact (stat_status_mapping "1234" 500 1234 (by decide) (by decide) (by decide)).1
  · exact (stat_status_mapping "1234" 500 1234 (by decide) (by decide) (by decide)).2.2.1
  · exact (stat_status_mapping "1234" 500 1234 (by decide) (by decide) (by decide)).2.2.2

/-- C9. For non-negative offset, `GetPartial` sets the Range header to the
bounded form `bytes=offset-(offset+length-1)` when `length ≥ 0` and the
open-ended form `bytes=offset-` when `length < 0`; it hands back the body
stream on status 200 or 206, the not-found sentinel on 404, and the fatal
error carrying the status on any other status — in every case with that
Range header on the issued request. -/
theorem getPartial_range_and_status (offset length : Int) (s : Nat)
    (ho : 0 ≤ offset) :
    (0 ≤ length → rangeHeader offset length =
      "bytes=" ++ toString offset ++ "-" ++ toString (offset + length - 1)) ∧
    (length < 0 → rangeHeader offset length = "bytes=" ++ toString offset ++ "-") ∧
    (s = 200 ∨ s = 206 →
      GetPartial (.response s) offset length =
        ⟨true, none, some (rangeHeader offset length)⟩) ∧
    GetPartial (.response 404) offset length =
      ⟨false, some .notExist, some (rangeHeader offset length)⟩ ∧
    (s ≠ 200 → s ≠ 206 → s ≠ 404 →
      GetPartial (.response s) offset length =
        ⟨false, some (.httpError s), some (rangeHeader offset length)⟩) := by
  have hno : ¬ offset < 0 := by omega
  refine ⟨fun hl => ?_, fun hl => ?_, fun hs => ?_, ?_, fun h1 h2 h3 => ?_⟩
  · rw [rangeHeader, if_pos hl]
  · rw [rangeHeader, if_neg (by omega)]
  · rcases hs with rfl | rfl <;> simp [GetPartial, hno]
  · simp [GetPartial, hno]
  · simp [GetPartial, hno, h1, h2, h3]

/-- Closed witness for `getPartial_range_and_status` at offset 5,
length 10, status 403. -/
theorem getPartial_range_and_status_witness :
    (0 : Int) ≤ 5 ∧
    rangeHeader 5 10 = "bytes=" ++ toString (5 : Int) ++ "-" ++ toString (5 + 10 - 1 : Int) ∧
    GetPartial (.response 403) 5 10 =
      ⟨false, some (.httpError 403), some (rangeHeader 5 10)⟩ := by
  refine ⟨by norm_num, ?_, ?_⟩
  · exact (getPartial_range_and_status 5 10 403 (by norm_num)).1 (by norm_num)
  · exact (getPartial_range_and_status 5 10 403 (by norm_num)).2.2.2.2
      (by decide) (by decide) (by decide)

/-! ## Order facts about the byte-wise string comparison -/

theorem char_toNat_inj {a b : Char} (h : a.toNat = b.toNat) : a = b :=
  Char.eq_of_val_eq (UInt32.eq_of_val_eq (Fin.eq_of_val_eq h))

theorem charsLt_irrefl : ∀ as : List Char, charsLt as as = false
  | [] => rfl
  | a :: as => by
    rw [charsLt, if_neg (lt_irrefl _), if_neg (lt_irrefl _)]
    exact charsLt_irrefl as

theorem charsLt_asymm : ∀ as bs : List Char,
    charsLt as bs = true → charsLt bs as = false
  | [], [], h => by simp [charsLt] at h
  | [], _ :: _, _ => rfl
  | _ :: _, [], h => by simp [charsLt] at h
  | a :: as, b :: bs, h => by
    by_cases h1 : a.toNat < b.toNat
    · rw [charsLt, if_neg (by omega : ¬ b.toNat < a.toNat), if_pos h1]
    · by_cases h2 : b.toNat < a.toNat
      · rw [charsLt, if_neg h1, if_pos h2] at h
        exact absurd h (by simp)
      · rw [charsLt, if_neg h1, if_neg h2] at h
        rw [charsLt, if_neg h2, if_neg h1]
        exact charsLt_asymm as bs h

theorem charsLt_flip_of_not_lt : ∀ as bs : List Char,
    charsLt as bs = false → charsLt bs as = true ∨ as = bs
  | [], [], _ => .inr rfl
  | [], b :: bs, h => by simp [charsLt] at h
  | _ :: _, [], _ => .inl rfl
  | a :: as, b :: bs, h => by
    by_cases h1 : a.toNat < b.toNat
    · rw [charsLt, if_pos h1] at h
      exact absurd h (by simp)
    · by_cases h2 : b.toNat < a.toNat
      · left
        rw [charsLt, if_pos h2]
      · rw [charsLt, if_neg h1, if_neg h2] at h
        have hab : a = b := char_toNat_inj (by omega)
        rcases charsLt_flip_of_not_lt as bs h with h3 | h3
        · left
          rw [charsLt, if_neg h2, if_neg h1]
          exact h3
        · right
          rw [hab, h3]

theorem charsLt_trans : ∀ as bs cs : List Char,
    charsLt as bs = true → charsLt bs cs = true → charsLt as cs = true
  | [], bs, cs, h1, h2 => by
    cases cs with
    | nil =>
      cases bs with
      | nil => simp [charsLt] at h1
      | cons b bs => simp [charsLt] at h2
    | cons c cs => rfl
  | a :: as, bs, cs, h1, h2 => by
    cases bs with
    | nil => simp [charsLt] at h1
    | cons b bs =>
      cases cs with
      | nil => simp [charsLt] at h2
      | cons c cs =>
        by_cases hbc1 : b.toNat < c.toNat
        · by_cases hab1 : a.toNat < b.toNat
          · rw [charsLt, if_pos (by omega : a.toNat < c.toNat)]
          · by_cases hab2 : b.toNat < a.toNat
            · rw [charsLt, if_neg hab1, if_pos hab2] at h1
              exact absurd h1 (by simp)
            · rw [charsLt, if_pos (by omega : a.toNat < c.toNat)]
        · by_cases hbc2 : c.toNat < b.toNat
          · rw [charsLt, if_neg hbc1, if_pos hbc2] at h2
            exact absurd h2 (by simp)
          · rw [charsLt, if_neg hbc1, if_neg hbc2] at h2
            by_cases hab1 : a.toNat < b.toNat
            · rw [charsLt, if_pos (by omega : a.toNat < c.toNat)]
            · by_cases hab2 : b.toNat < a.toNat
              · rw [charsLt, if_neg hab1, if_pos hab2] at h1
                exact absurd h1 (by simp)
              · rw [charsLt, if_neg hab1, if_neg hab2] at h1
                rw [charsLt, if_neg (by omega : ¬ a.toNat < c.toNat),
                  if_neg (by omega : ¬ c.toNat < a.toNat)]
                exact charsLt_trans as bs cs h1 h2

theorem charsLt_not_lt_trans {a b c : List Char} (h1 : charsLt b a = false)
    (h2 : charsLt c b = false) : charsLt c a = false := by
  by_contra hc
  have hca : charsLt c a = true := by
    cases hcb : charsLt c a
    · exact absurd hcb hc
    · rfl
  rcases charsLt_flip_of_not_lt b a h1 with hab | hab
  · have := charsLt_trans c a b hca hab
    rw [this] at h2
    exact absurd h2 (by simp)
  · rw [hab] at h2
    rw [hca] at h2
    exact absurd h2 (by simp)

theorem string_data_inj : ∀ {s u : String}, s.data = u.data → s = u
  | ⟨_⟩, ⟨_⟩, rfl => rfl

/-! ## The ordering invariant of the item loop and the page loop -/

theorem getLast?_append_singleton (l : List Item) (a : Item) :
    (l ++ [a]).getLast? = some a := by
  rw [List.getLast?_concat]

/-- Processing one accepted page preserves the ordering invariant: if the
accumulated items satisfy `stepRel` consecutively and end at the current
marker, and the page contents are strictly increasing with no key below
the marker, then the new accumulated items satisfy `stepRel` consecutively
and end at the new marker. -/
theorem processItems_invariant (startAt : String) :
    ∀ (c items : List Item) (marker : String) (items' : List Item)
      (marker' : String),
      List.Chain' (stepRel startAt) items →
      (∀ l, items.getLast? = some l → l.key = marker) →
      c.Pairwise (fun x y => charsLt x.key.data y.key.data = true) →
      (∀ it ∈ c, charsLt it.key.data marker.data = false) →
      processItems startAt c items marker = .ok (items', marker') →
      List.Chain' (stepRel startAt) items' ∧
        (∀ l, items'.getLast? = some l → l.key = marker') := by
  intro c
  induction c with
  | nil =>
    intro items marker items' marker' hA hB _ _ h
    simp only [processItems] at h
    injection h with h
    obtain ⟨rfl, rfl⟩ := Prod.mk.inj h
    exact ⟨hA, hB⟩
  | cons it rest ih =>
    intro items marker items' marker' hA hB hp hm h
    simp only [processItems] at h
    split at h
    case isTrue hskip =>
      exact ih items marker items' marker' hA hB (List.pairwise_cons.mp hp).2
        (fun x hx => hm x (List.mem_cons_of_mem _ hx)) h
    case isFalse hnskip =>
      split at h
      case isTrue hlt => exact absurd h (by simp)
      case isFalse hnlt =>
        have hmn : charsLt it.key.data marker.data = false :=
          hm it (List.mem_cons_self _ _)
        have hstep : ∀ l, items.getLast? = some l → stepRel startAt l it := by
          intro l hl
          have hk : l.key = marker := hB l hl
          rcases charsLt_flip_of_not_lt _ _ hmn with hgt | heq
          · left
            rw [hk]
            exact hgt
          · have hkey : it.key = marker := string_data_inj heq
            have hsa : it.key = startAt := by
              by_cases hsa : it.key = startAt
              · exact hsa
              · exact absurd ⟨hkey, hsa⟩ hnskip
            right
            exact ⟨by rw [hk, hkey], hsa⟩
        have hA' : List.Chain' (stepRel startAt) (items ++ [it]) := by
          rw [List.chain'_append]
          refine ⟨hA, List.chain'_singleton _, ?_⟩
          intro x hx y hy
          have hyit : y = it := by
            simp only [List.head?_cons, Option.mem_def, Option.some.injEq] at hy
            exact hy.symm
          subst hyit
          exact hstep x hx
        have hB' : ∀ l, (items ++ [it]).getLast? = some l → l.key = it.key := by
          intro l hl
          rw [getLast?_append_singleton] at hl
          injection hl with hl
          rw [← hl]
        have hm' : ∀ x ∈ rest, charsLt x.key.data it.key.data = false := by
          intro x hx
          exact charsLt_asymm _ _ ((List.pairwise_cons.mp hp).1 x hx)
        exact ih (items ++ [it]) it.key items' marker' hA' hB'
          (List.pairwise_cons.mp hp).2 hm' h

/-- When no round trip yields a status ≥ 500, every page the retry loop
accepts is a decoded response of the oracle that echoes the requested
max-keys, bucket name and marker (the stale-`bres` break is impossible). -/
theorem fetchPageAux_accepted_valid (t : Nat → RoundTrip) (fetchN : Int)
    (bucket marker : String) (h5 : No5xx t) :
    ∀ k bres idx b idx',
      fetchPageAux t fetchN bucket marker k bres idx = .accepted b idx' →
      ∃ n, t n = .response 200 (some b) ∧ b.maxKeys = fetchN ∧
        b.name = bucket ∧ b.marker = marker := by
  intro k
  induction k with
  | zero =>
    intro bres idx b idx' h
    rcases heq : t idx with _ | ⟨status, decoded⟩
    · simp only [fetchPageAux, heq] at h
      exact absurd h (by simp)
    · rcases decoded with _ | b2
      · simp only [fetchPageAux, heq] at h
        split at h
        · exact absurd h (by simp)
        · split at h
          · exact absurd h (by simp)
          next hge => exact absurd (h5 idx status none heq) (by omega)
      · simp only [fetchPageAux, heq] at h
        split at h
        next h200 =>
          subst h200
          split at h
          next hval =>
            injection h with hb hidx
            subst hb
            exact ⟨idx, heq, hval.1, hval.2.1, hval.2.2⟩
          next hval => exact absurd h (by simp)
        next h200 =>
          split at h
          · exact absurd h (by simp)
          next hge => exact absurd (h5 idx status (some b2) heq) (by omega)
  | succ k ih =>
    intro bres idx b idx' h
    rcases heq : t idx with _ | ⟨status, decoded⟩
    · simp only [fetchPageAux, heq] at h
      exact ih _ _ _ _ h
    · rcases decoded with _ | b2
      · simp only [fetchPageAux, heq] at h
        split at h
        next h200 =>
          split at h
          · exact ih _ _ _ _ h
          · exact absurd h (by simp)
        next h200 =>
          split at h
          · exact absurd h (by simp)
          next hge => exact absurd (h5 idx status none heq) (by omega)
      · simp only [fetchPageAux, heq] at h
        split at h
        next h200 =>
          subst h200
          split at h
          next hval =>
            injection h with hb hidx
            subst hb
            exact ⟨idx, heq, hval.1, hval.2.1, hval.2.2⟩
          next hval =>
            split at h
            · exact ih _ _ _ _ h
            · exact absurd h (by simp)
        next h200 =>
          split at h
          · exact absurd h (by simp)
          next hge => exact absurd (h5 idx status (some b2) heq) (by omega)

/-- The page loop preserves the ordering invariant through every accepted
page, provided the oracle yields no status ≥ 500 and behaves on decoded
pages. -/
theorem getBucketLoop_ordered (t : Nat → RoundTrip) (bucket startAt : String)
    (maxKeys : Int) (hg : GoodPages t) (h5 : No5xx t) :
    ∀ fuel items marker idx items' rt,
      List.Chain' (stepRel startAt) items →
      (∀ l, items.getLast? = some l → l.key = marker) →
      getBucketLoop t bucket startAt maxKeys fuel items marker idx =
        some ⟨items', none, rt⟩ →
      List.Chain' (stepRel startAt) items' := by
  intro fuel
  induction fuel with
  | zero =>
    intro items marker idx items' rt hA hB h
    simp only [getBucketLoop] at h
    split at h
    · exact absurd h (by simp)
    · injection h with h
      obtain ⟨rfl, -, -⟩ := GBReturn.mk.inj h
      exact hA
  | succ fuel ih =>
    intro items marker idx items' rt hA hB h
    simp only [getBucketLoop] at h
    split at h
    case isFalse =>
      injection h with h
      obtain ⟨rfl, -, -⟩ := GBReturn.mk.inj h
      exact hA
    case isTrue hcond =>
      split at h
      next e idx' heq =>
        injection h with h
        obtain ⟨-, habs, -⟩ := GBReturn.mk.inj h
        exact absurd habs (by simp)
      next bres idx' heq =>
        split at h
        next e2 heq2 =>
          injection h with h
          obtain ⟨-, habs, -⟩ := GBReturn.mk.inj h
          exact absurd habs (by simp)
        next items2 marker2 heq2 =>
          obtain ⟨n, htn, -, -, hmark⟩ :=
            fetchPageAux_accepted_valid t _ bucket marker h5 _ _ _ _ _ heq
          obtain ⟨hpw, hge⟩ := hg n bres htn
          have hm : ∀ it ∈ bres.contents,
              charsLt it.key.data marker.data = false := by
            intro it hit
            rw [← hmark]
            exact hge it hit
          have hinv := processItems_invariant startAt bres.contents items marker
            items2 marker2 hA hB hpw hm heq2
          split at h
          · exact ih _ _ _ _ _ hinv.1 hinv.2 h
          · injection h with h
            obtain ⟨rfl, -, -⟩ := GBReturn.mk.inj h
            exact hinv.1

/-- C2, amended. The claim as stated fails (`getBucket_unsorted_page_returned`):
the code validates no ordering within a page, a response with status ≥ 500
can commit a stale unvalidated page, and a page that re-sends the original
start key duplicates it.  What holds: for every `GetBucket` call that
returns without error, if no round trip yields a status ≥ 500 and every
decoded page body is strictly increasing by key with no key below its
echoed marker, then the returned item sequence is ordered: consecutive
items strictly increase by key except that an item carrying the original
start key may be immediately repeated, and in particular no key is
lexicographically below any earlier key. -/
theorem getBucket_ordered (t : Nat → RoundTrip) (bucket startAt : String)
    (maxKeys : Int) (fuel rt : Nat) (items : List Item)
    (hg : GoodPages t) (h5 : No5xx t)
    (h : GetBucket t bucket startAt maxKeys fuel = some ⟨items, none, rt⟩) :
    List.Chain' (stepRel startAt) items ∧
      items.Pairwise (fun x y => charsLt y.key.data x.key.data = false) := by
  have hchain : List.Chain' (stepRel startAt) items := by
    rw [GetBucket] at h
    split at h
    · injection h with h
      obtain ⟨-, habs, -⟩ := GBReturn.mk.inj h
      exact absurd habs (by simp)
    · exact getBucketLoop_ordered t bucket startAt maxKeys hg h5 fuel [] startAt
        0 items rt List.chain'_nil (by simp) h
  refine ⟨hchain, ?_⟩
  haveI : IsTrans Item (fun x y => charsLt y.key.data x.key.data = false) :=
    ⟨fun _ _ _ hxy hyz => charsLt_not_lt_trans hxy hyz⟩
  have h2 : List.Chain' (fun x y : Item => charsLt y.key.data x.key.data = false)
      items := by
    refine hchain.imp ?_
    intro x y hxy
    rcases hxy with hlt | ⟨hxy, -⟩
    · exact charsLt_asymm _ _ hlt
    · rw [hxy]
      exact charsLt_irrefl _
  exact List.chain'_iff_pairwise.mp h2

/-- Closed witness for `getBucket_ordered`: a single sorted final page
`["a","c"]` for start key `"a"` satisfies the hypotheses, and the returned
sequence `["a","c"]` is ordered. -/
theorem getBucket_ordered_witness :
    GoodPages tSorted ∧ No5xx tSorted ∧
    GetBucket tSorted "bkt" "a" 10 1 =
      some ⟨[⟨"a", "", 0⟩, ⟨"c", "", 0⟩], none, 1⟩ ∧
    List.Chain' (stepRel "a") [⟨"a", "", 0⟩, ⟨"c", "", 0⟩] := by
  have hg : GoodPages tSorted := by
    intro n b hb
    injection hb with h1 h2
    injection h2 with h2
    rw [← h2]
    constructor
    · refine List.Pairwise.cons ?_ (List.Pairwise.cons ?_ List.Pairwise.nil)
      · intro y hy
        rw [List.mem_singleton] at hy
        subst hy
        decide
      · intro y hy
        exact absurd hy (List.not_mem_nil _)
    · intro it hit
      rcases List.mem_cons.mp hit with rfl | hit
      · decide
      · rw [List.mem_singleton] at hit
        subst hit
        decide
  have h5 : No5xx tSorted := by
    intro n s d h
    injection h with h1 _
    omega
  refine ⟨hg, h5, by decide, ?_⟩
  exact (getBucket_ordered tSorted "bkt" "a" 10 1 1 _ hg h5 (by decide)).1

end Minio
